import Mathlib

/-!
Shallow embedding of `crates/workspace2/src/dock.rs`: the `Dock` panel
registry and activation state machine.

A registered panel is modelled by the state the dock can observe and mutate
through its type-erased `PanelHandle`: a runtime-unique `id`, the
`persistent_name`, and the `active` / `zoomed` flags that `set_active` /
`set_zoomed` write (as in `TestPanel`, freshly constructed panels start with
`active = false`).  Side effects of an operation (`panel.set_active(..)`
calls and `cx.notify()`) are recorded in an explicit trace of `DockCall`s so
that claims about which calls fire can be stated exactly.
-/

/-- `DockPosition` from dock.rs (Left | Bottom | Right). -/
inductive DockPosition where
  | Left
  | Bottom
  | Right
deriving Repr, DecidableEq

/-- The dock-observable state of one registered panel (the target of a
`PanelEntry`'s type-erased handle). `active` is the last value the panel
received through `set_active` (initially `false`, as in `TestPanel::new`). -/
structure PanelState where
  id : Nat
  name : String
  active : Bool
  zoomed : Bool
deriving Repr, DecidableEq

/-- One observable side effect of a dock operation: a `panel.set_active(value)`
call delivered to the panel with the given id, or a `cx.notify()`. -/
inductive DockCall where
  | setActive (id : Nat) (value : Bool)
  | notify
deriving Repr, DecidableEq

/-- `struct Dock` from dock.rs. `panel_entries` holds the registered panels in
insertion order; `active_panel_index` is a raw `usize`. -/
structure Dock where
  position : DockPosition
  panel_entries : List PanelState
  is_open : Bool
  active_panel_index : Nat
deriving Repr, DecidableEq

/-- `Dock::new(position)`. -/
def Dock.new (position : DockPosition) : Dock :=
  { position := position
    panel_entries := []
    is_open := false
    active_panel_index := 0 }

/-- Rust's `Iterator::position`: index of the first element satisfying `p`. -/
def positionIdx (p : α → Bool) : List α → Option Nat
  | [] => none
  | a :: t => if p a then some 0 else (positionIdx p t).map (· + 1)

/-- `Dock::panel_index_for_persistent_name`. -/
def Dock.panel_index_for_persistent_name (d : Dock) (ui_name : String) : Option Nat :=
  positionIdx (fun entry => entry.name == ui_name) d.panel_entries

/-- `Dock::panels_len`. -/
def Dock.panels_len (d : Dock) : Nat :=
  d.panel_entries.length

/-- `Dock::active_panel`: `panel_entries.get(active_panel_index)`. -/
def Dock.active_panel (d : Dock) : Option PanelState :=
  d.panel_entries[d.active_panel_index]?

/-- `Dock::visible_entry`: the active entry, but only when the dock is open. -/
def Dock.visible_entry (d : Dock) : Option PanelState :=
  if d.is_open then d.panel_entries[d.active_panel_index]? else none

/-- `Dock::visible_panel`. -/
def Dock.visible_panel (d : Dock) : Option PanelState :=
  d.visible_entry

/-- `Dock::set_open(open)`: when the flag changes, flip it, send
`set_active(open)` to the entry at `active_panel_index` (if any), and notify. -/
def Dock.set_open (d : Dock) (b : Bool) : Dock × List DockCall :=
  if b ≠ d.is_open then
    let d1 : Dock := { d with is_open := b }
    match d1.panel_entries[d1.active_panel_index]? with
    | some active_panel =>
        ({ d1 with panel_entries :=
             d1.panel_entries.set d1.active_panel_index { active_panel with active := b } },
         [DockCall.setActive active_panel.id b, DockCall.notify])
    | none => (d1, [DockCall.notify])
  else (d, [])

/-- `Dock::activate_panel(panel_ix)`: when the index changes, send
`set_active(false)` to the old active entry (if any), store the new index
unconditionally, send `set_active(true)` to the entry there (if any), notify. -/
def Dock.activate_panel (d : Dock) (panel_ix : Nat) : Dock × List DockCall :=
  if panel_ix ≠ d.active_panel_index then
    let step1 : List PanelState × List DockCall :=
      match d.panel_entries[d.active_panel_index]? with
      | some old_active =>
          (d.panel_entries.set d.active_panel_index { old_active with active := false },
           [DockCall.setActive old_active.id false])
      | none => (d.panel_entries, [])
    let d1 : Dock := { d with panel_entries := step1.1, active_panel_index := panel_ix }
    match d1.panel_entries[panel_ix]? with
    | some new_active =>
        ({ d1 with panel_entries :=
             d1.panel_entries.set panel_ix { new_active with active := true } },
         step1.2 ++ [DockCall.setActive new_active.id true, DockCall.notify])
    | none => (d1, step1.2 ++ [DockCall.notify])
  else (d, [])

/-- `Dock::add_panel(panel)`: push a new entry and notify (no `set_active`,
no de-duplication). -/
def Dock.add_panel (d : Dock) (panel : PanelState) : Dock × List DockCall :=
  ({ d with panel_entries := d.panel_entries ++ [panel] }, [DockCall.notify])

/-- `Dock::remove_panel(panel)`: locate the entry by id; if it is the active
one, reset the index to 0 and `set_open(false)` (before erasing); if it is
before the active one, decrement the index; then erase the entry and notify.
Absent id: no-op. -/
def Dock.remove_panel (d : Dock) (panel_id : Nat) : Dock × List DockCall :=
  match positionIdx (fun entry => entry.id == panel_id) d.panel_entries with
  | some panel_ix =>
      let step1 : Dock × List DockCall :=
        if panel_ix = d.active_panel_index then
          Dock.set_open { d with active_panel_index := 0 } false
        else if panel_ix < d.active_panel_index then
          ({ d with active_panel_index := d.active_panel_index - 1 }, [])
        else (d, [])
      ({ step1.1 with panel_entries := step1.1.panel_entries.eraseIdx panel_ix },
       step1.2 ++ [DockCall.notify])
  | none => (d, [])

/-- The `PanelEvent::Activate` arm of the subscription installed by
`Dock::add_panel`: locate the emitting panel by id; if found, `set_open(true)`
then `activate_panel(ix)`. -/
def Dock.handleActivate (d : Dock) (panel_id : Nat) : Dock × List DockCall :=
  match positionIdx (fun entry => entry.id == panel_id) d.panel_entries with
  | some ix =>
      let step1 := d.set_open true
      let step2 := step1.1.activate_panel ix
      (step2.1, step1.2 ++ step2.2)
  | none => (d, [])

/-- The `PanelEvent::Close` arm of the subscription installed by
`Dock::add_panel`: if the emitting panel is the visible panel, `set_open(false)`. -/
def Dock.handleClose (d : Dock) (panel_id : Nat) : Dock × List DockCall :=
  if (d.visible_panel).map (fun p => p.id) = some panel_id then
    d.set_open false
  else (d, [])

/-- `Dock::zoom_out`: clear the zoom flag on every entry that reports zoomed. -/
def Dock.zoom_out (d : Dock) : Dock :=
  { d with panel_entries :=
      d.panel_entries.map (fun entry =>
        if entry.zoomed then { entry with zoomed := false } else entry) }

/-- Adding a list of freshly created panels in order (iterated `add_panel`). -/
def Dock.add_panels (d : Dock) (ps : List PanelState) : Dock :=
  ps.foldl (fun acc p => (acc.add_panel p).1) d

/-- One documented dock operation, as enumerated by the spec: `add_panel` of a
freshly created (hence inactive) panel, `remove_panel`, `activate_panel` with
an in-range index, `set_open`, and the `Activate` / `Close` event handlers. -/
inductive DockStep : Dock → Dock → Prop where
  | add (d : Dock) (p : PanelState) (hp : p.active = false) :
      DockStep d (d.add_panel p).1
  | remove (d : Dock) (pid : Nat) :
      DockStep d (d.remove_panel pid).1
  | activate (d : Dock) (ix : Nat) (h : ix < d.panel_entries.length) :
      DockStep d (d.activate_panel ix).1
  | setOpen (d : Dock) (b : Bool) :
      DockStep d (d.set_open b).1
  | evActivate (d : Dock) (pid : Nat) :
      DockStep d (d.handleActivate pid).1
  | evClose (d : Dock) (pid : Nat) :
      DockStep d (d.handleClose pid).1

/-- Docks reachable from a fresh dock by documented operations. -/
inductive Reachable : Dock → Prop where
  | init (pos : DockPosition) : Reachable (Dock.new pos)
  | step {d d' : Dock} : Reachable d → DockStep d d' → Reachable d'

/-- The inductive invariant of the dock state machine: the active index is 0
when the registry is empty and in range otherwise, and every entry away from
the active index is inactive. -/
def DockInv (d : Dock) : Prop :=
  (d.panel_entries = [] → d.active_panel_index = 0) ∧
  (d.panel_entries ≠ [] → d.active_panel_index < d.panel_entries.length) ∧
  ∀ i (hi : i < d.panel_entries.length), i ≠ d.active_panel_index →
    d.panel_entries[i].active = false

/-! ### Concrete panels and docks used as test inputs, and claim statements -/

def panelA : PanelState := { id := 1, name := "A", active := false, zoomed := false }

def panelB : PanelState := { id := 2, name := "B", active := false, zoomed := false }

def panelC : PanelState := { id := 3, name := "C", active := false, zoomed := false }

/-- Two distinct panel instances of the same concrete type share one
`persistent_name` (it is a per-type static string). -/
def panelT1 : PanelState := { id := 4, name := "TestPanel", active := false, zoomed := false }

def panelT2 : PanelState := { id := 5, name := "TestPanel", active := false, zoomed := false }

/-- A dock opened while empty, then given one panel (reachable). -/
def dockOpenEmptyThenA : Dock :=
  (((Dock.new DockPosition.Bottom).set_open true).1.add_panel panelA).1

/-- One panel added, then the dock opened (reachable). -/
def dockAopen : Dock :=
  (((Dock.new DockPosition.Left).add_panel panelA).1.set_open true).1

/-- Two panels added, the second activated while the dock stays closed (reachable). -/
def dockABactivatedClosed : Dock :=
  ((((Dock.new DockPosition.Left).add_panel panelA).1.add_panel panelB).1.activate_panel 1).1

/-- A closed three-entry dock. -/
def dockABCclosed : Dock :=
  { position := DockPosition.Left
    panel_entries := [panelA, panelB, panelC]
    is_open := false
    active_panel_index := 0 }

/-- An open three-entry dock with the first panel active. -/
def dockABCopen : Dock :=
  { position := DockPosition.Left
    panel_entries := [{ panelA with active := true }, panelB, panelC]
    is_open := true
    active_panel_index := 0 }

/-- An open three-entry dock with the middle panel active. -/
def dockBActiveOpen : Dock :=
  { position := DockPosition.Left
    panel_entries := [panelA, { panelB with active := true }, panelC]
    is_open := true
    active_panel_index := 1 }

/-- An open two-entry dock with the first panel active. -/
def dockABopen : Dock :=
  { position := DockPosition.Left
    panel_entries := [{ panelA with active := true }, panelB]
    is_open := true
    active_panel_index := 0 }

/-- A closed one-entry dock. -/
def dockSingleA : Dock :=
  { position := DockPosition.Left
    panel_entries := [panelA]
    is_open := false
    active_panel_index := 0 }

/-- An open one-entry dock whose panel is visible. -/
def dockAvisible : Dock :=
  { position := DockPosition.Left
    panel_entries := [{ panelA with active := true }]
    is_open := true
    active_panel_index := 0 }

/-- The property asserted by the spec invariant: exactly one registered panel
reports `is_active`, it sits at `active_panel_index`, and `active_panel()`
returns it. -/
def exactlyOneActive (d : Dock) : Prop :=
  d.panel_entries.countP (fun p => p.active) = 1 ∧
  ∀ i (hi : i < d.panel_entries.length), d.panel_entries[i].active = true →
    i = d.active_panel_index ∧ d.active_panel = some d.panel_entries[i]

/-- Claim C1 as stated: on every reachable open dock with a non-empty
registry, exactly one panel is active. -/
def c1Claim : Prop :=
  ∀ d : Dock, Reachable d → d.is_open = true → d.panel_entries ≠ [] →
    exactlyOneActive d

/-- Claim C2 as stated: on every reachable dock, a panel's last received
`set_active` value equals its dock-observed activation state (open and at the
active index). -/
def c2Claim : Prop :=
  ∀ d : Dock, Reachable d → ∀ i (hi : i < d.panel_entries.length),
    (d.panel_entries[i].active = true ↔
      (d.is_open = true ∧ i = d.active_panel_index))

/-- Claim C8 as stated: after any sequence of `add_panel` calls on a fresh
dock, `panels_len` counts the calls and every added panel is resolved to its
own index by `panel_index_for_persistent_name`. -/
def c8Claim : Prop :=
  ∀ (pos : DockPosition) (ps : List PanelState),
    ((Dock.new pos).add_panels ps).panels_len = ps.length ∧
    ∀ i (hi : i < ps.length),
      ((Dock.new pos).add_panels ps).panel_index_for_persistent_name ps[i].name =
        some i

/-! ### Helper lemmas about `positionIdx` and lists -/

theorem positionIdx_some_lt {p : α → Bool} : ∀ {l : List α} {i : Nat},
    positionIdx p l = some i → i < l.length := by
  intro l
  induction l with
  | nil => intro i h; simp [positionIdx] at h
  | cons a t ih =>
    intro i h
    by_cases hpa : p a
    · simp only [positionIdx, if_pos hpa, Option.some.injEq] at h
      simp only [List.length_cons]
      omega
    · simp [positionIdx, hpa, Option.map_eq_some'] at h
      obtain ⟨j, hj, rfl⟩ := h
      have := ih hj
      simp only [List.length_cons]
      omega

theorem positionIdx_none_of_all {p : α → Bool} : ∀ {l : List α},
    (∀ a ∈ l, p a = false) → positionIdx p l = none := by
  intro l
  induction l with
  | nil => intro _; rfl
  | cons a t ih =>
    intro h
    have hpa := h a (List.mem_cons_self a t)
    simp [positionIdx, hpa, ih fun b hb => h b (List.mem_cons_of_mem a hb)]

theorem positionIdx_map_nodup {β : Type} [BEq β] [LawfulBEq β] {f : α → β} :
    ∀ {l : List α} {ix : Nat} (hix : ix < l.length),
      (l.map f).Nodup → positionIdx (fun a => f a == f l[ix]) l = some ix := by
  intro l
  induction l with
  | nil => intro ix hix; simp at hix
  | cons a t ih =>
    intro ix hix hnd
    rw [List.map_cons, List.nodup_cons] at hnd
    match ix with
    | 0 => simp [positionIdx]
    | j + 1 =>
      have hj : j < t.length := by simpa using hix
      have hmem : f t[j] ∈ t.map f := List.mem_map.mpr ⟨t[j], t.getElem_mem hj, rfl⟩
      have hne : (f a == f t[j]) = false := by
        apply beq_false_of_ne
        intro heq
        exact hnd.1 (heq ▸ hmem)
      simp only [List.getElem_cons_succ, positionIdx, hne, if_neg Bool.false_ne_true,
        ih hj hnd.2, Option.map_some']

theorem map_eraseIdx {f : α → β} : ∀ (l : List α) (i : Nat),
    (l.eraseIdx i).map f = (l.map f).eraseIdx i
  | [], _ => rfl
  | _ :: _, 0 => rfl
  | a :: t, i + 1 => by
    simp only [List.eraseIdx_cons_succ, List.map_cons, map_eraseIdx t i]

theorem countP_active_le_one : ∀ (l : List PanelState) (k : Nat),
    (∀ i (hi : i < l.length), i ≠ k → l[i].active = false) →
    l.countP (fun p => p.active) ≤ 1 := by
  intro l
  induction l with
  | nil => intro k _; simp [List.countP_nil]
  | cons a t ih =>
    intro k h
    rw [List.countP_cons]
    match k with
    | 0 =>
      have ht : t.countP (fun p => p.active) = 0 := by
        rw [List.countP_eq_zero]
        intro x hx
        obtain ⟨j, hj, rfl⟩ := List.mem_iff_getElem.mp hx
        simpa using h (j + 1) (by simpa using hj) (by omega)
      rw [ht]
      split <;> omega
    | k' + 1 =>
      have ha : a.active = false := by simpa using h 0 (by simp) (by omega)
      have ht := ih k' fun j hj hjk =>
        h (j + 1) (by simpa using hj) (by omega)
      simpa [ha] using ht

/-! ### Basic facts about the operations -/

theorem set_open_eq_self {d : Dock} {b : Bool} (hb : b = d.is_open) :
    d.set_open b = (d, []) := by
  simp [Dock.set_open, hb]

theorem set_open_is_open (d : Dock) (b : Bool) : (d.set_open b).1.is_open = b := by
  by_cases hb : b = d.is_open <;>
    cases hget : d.panel_entries[d.active_panel_index]? <;>
      simp [Dock.set_open, hb, hget]

theorem set_open_index (d : Dock) (b : Bool) :
    (d.set_open b).1.active_panel_index = d.active_panel_index := by
  by_cases hb : b = d.is_open <;>
    cases hget : d.panel_entries[d.active_panel_index]? <;>
      simp [Dock.set_open, hb, hget]

theorem set_open_length (d : Dock) (b : Bool) :
    (d.set_open b).1.panel_entries.length = d.panel_entries.length := by
  by_cases hb : b = d.is_open <;>
    cases hget : d.panel_entries[d.active_panel_index]? <;>
      simp [Dock.set_open, hb, hget]

theorem set_open_entries_none {d : Dock} {b : Bool} (hb : b ≠ d.is_open)
    (hget : d.panel_entries[d.active_panel_index]? = none) :
    (d.set_open b).1.panel_entries = d.panel_entries := by
  simp [Dock.set_open, hb, hget]

theorem set_open_entries_some {d : Dock} {b : Bool} (hb : b ≠ d.is_open) {p : PanelState}
    (hget : d.panel_entries[d.active_panel_index]? = some p) :
    (d.set_open b).1.panel_entries =
      d.panel_entries.set d.active_panel_index { p with active := b } := by
  simp [Dock.set_open, hb, hget]

theorem activate_panel_eq_self {d : Dock} {ix : Nat} (hix : ix = d.active_panel_index) :
    d.activate_panel ix = (d, []) := by
  simp [Dock.activate_panel, hix]

theorem activate_panel_index (d : Dock) (ix : Nat) :
    (d.activate_panel ix).1.active_panel_index = ix := by
  by_cases hix : ix = d.active_panel_index
  · simp [Dock.activate_panel, hix]
  · simp only [Dock.activate_panel, if_pos hix]
    cases hget1 : d.panel_entries[d.active_panel_index]? <;>
      simp only [hget1] <;> split <;> rfl

theorem activate_panel_is_open (d : Dock) (ix : Nat) :
    (d.activate_panel ix).1.is_open = d.is_open := by
  by_cases hix : ix = d.active_panel_index
  · simp [Dock.activate_panel, hix]
  · simp only [Dock.activate_panel, if_pos hix]
    cases hget1 : d.panel_entries[d.active_panel_index]? <;>
      simp only [hget1] <;> split <;> rfl

theorem activate_panel_length (d : Dock) (ix : Nat) :
    (d.activate_panel ix).1.panel_entries.length = d.panel_entries.length := by
  by_cases hix : ix = d.active_panel_index
  · simp [Dock.activate_panel, hix]
  · simp only [Dock.activate_panel, if_pos hix]
    cases hget1 : d.panel_entries[d.active_panel_index]? <;>
      simp only [hget1] <;> split <;>
        simp_all [List.length_set]

/-- `DockInv` only looks at the registry length, the active index, and the
activation flags away from the active index. -/
theorem dockInv_of_away_eq {d d' : Dock} (hinv : DockInv d)
    (hidx : d'.active_panel_index = d.active_panel_index)
    (hlen : d'.panel_entries.length = d.panel_entries.length)
    (hact : ∀ i (hi : i < d'.panel_entries.length) (hi' : i < d.panel_entries.length),
        i ≠ d'.active_panel_index →
        d'.panel_entries[i].active = d.panel_entries[i].active) :
    DockInv d' := by
  obtain ⟨h1, h2, h3⟩ := hinv
  refine ⟨?_, ?_, ?_⟩
  · intro he
    have : d.panel_entries.length = 0 := by
      rw [← hlen, he, List.length_nil]
    rw [hidx]
    exact h1 (List.length_eq_zero.mp this)
  · intro hne
    have hne' : d.panel_entries ≠ [] := by
      intro hd
      apply hne
      apply List.length_eq_zero.mp
      rw [hlen, hd, List.length_nil]
    have := h2 hne'
    omega
  · intro i hi hne
    have hi' : i < d.panel_entries.length := by omega
    rw [hact i hi hi' hne]
    exact h3 i hi' (by rw [hidx] at hne; exact hne)

/-! ### The invariant is preserved by every documented operation -/

theorem dockInv_new (pos : DockPosition) : DockInv (Dock.new pos) := by
  refine ⟨fun _ => rfl, fun h => absurd rfl h, ?_⟩
  intro i hi
  simp [Dock.new] at hi

theorem dockInv_set_open {d : Dock} (hinv : DockInv d) (b : Bool) :
    DockInv (d.set_open b).1 := by
  apply dockInv_of_away_eq hinv (set_open_index d b) (set_open_length d b)
  intro i hi hi' hne
  rw [set_open_index] at hne
  by_cases hb : b = d.is_open
  · simp only [set_open_eq_self hb]
  · cases hget : d.panel_entries[d.active_panel_index]? with
    | none => simp only [set_open_entries_none hb hget]
    | some p =>
      simp only [set_open_entries_some hb hget]
      rw [List.getElem_set_ne (fun h => hne h.symm)]

theorem dockInv_add {d : Dock} (hinv : DockInv d) {p : PanelState}
    (hp : p.active = false) : DockInv (d.add_panel p).1 := by
  obtain ⟨h1, h2, h3⟩ := hinv
  refine ⟨?_, ?_, ?_⟩
  · intro h0
    exact absurd h0 (by simp [Dock.add_panel])
  · intro _
    simp only [Dock.add_panel, List.length_append, List.length_cons, List.length_nil]
    by_cases hd : d.panel_entries = []
    · rw [h1 hd, hd]
      simp
    · have := h2 hd
      omega
  · intro i hi hne
    simp only [Dock.add_panel] at hi ⊢
    by_cases hilt : i < d.panel_entries.length
    · rw [List.getElem_append_left hilt]
      exact h3 i hilt hne
    · have hieq : i = d.panel_entries.length := by
        simp only [List.length_append, List.length_cons, List.length_nil] at hi
        omega
      rw [List.getElem_concat_length d.panel_entries p i hieq (by simpa using hi)]
      exact hp

theorem lt_of_getElem?_eq_some {l : List α} {i : Nat} {a : α}
    (h : l[i]? = some a) : i < l.length := by
  by_contra hle
  rw [List.getElem?_eq_none (by omega)] at h
  exact Option.noConfusion h

/-- Away from both the old and the new active index, `activate_panel` leaves
entries untouched. -/
theorem activate_panel_getElem?_away {d : Dock} {ix : Nat} (heq : ix ≠ d.active_panel_index)
    (j : Nat) (hj1 : j ≠ ix) (hj2 : j ≠ d.active_panel_index) :
    (d.activate_panel ix).1.panel_entries[j]? = d.panel_entries[j]? := by
  simp only [Dock.activate_panel, if_pos heq]
  cases hget1 : d.panel_entries[d.active_panel_index]? with
  | none =>
    simp only [hget1]
    cases hget2 : d.panel_entries[ix]? <;>
      simp [hget2, List.getElem?_set_ne (Ne.symm hj1)]
  | some p =>
    simp only [hget1]
    cases hget2 : (d.panel_entries.set d.active_panel_index
        { p with active := false })[ix]? <;>
      simp [hget2, List.getElem?_set_ne (Ne.symm hj1), List.getElem?_set_ne (Ne.symm hj2)]

/-- `activate_panel` to a different index clears the old active entry's flag. -/
theorem activate_panel_getElem?_old {d : Dock} {ix : Nat} (heq : ix ≠ d.active_panel_index)
    {p : PanelState} (hget1 : d.panel_entries[d.active_panel_index]? = some p) :
    (d.activate_panel ix).1.panel_entries[d.active_panel_index]? =
      some { p with active := false } := by
  have hact : d.active_panel_index < d.panel_entries.length := lt_of_getElem?_eq_some hget1
  simp only [Dock.activate_panel, if_pos heq, hget1]
  cases hget2 : (d.panel_entries.set d.active_panel_index
      { p with active := false })[ix]? <;>
    simp [hget2, List.getElem?_set_ne heq, List.getElem?_set_self hact]

theorem dockInv_activate {d : Dock} (hinv : DockInv d) {ix : Nat}
    (hix : ix < d.panel_entries.length) : DockInv (d.activate_panel ix).1 := by
  obtain ⟨h1, h2, h3⟩ := hinv
  by_cases heq : ix = d.active_panel_index
  · rw [activate_panel_eq_self heq]
    exact ⟨h1, h2, h3⟩
  · have hne : d.panel_entries ≠ [] := by
      intro h0
      rw [h0] at hix
      simp at hix
    have hact : d.active_panel_index < d.panel_entries.length := h2 hne
    refine ⟨?_, ?_, ?_⟩
    · intro h0
      have := congrArg List.length h0
      rw [activate_panel_length] at this
      simp only [List.length_nil] at this
      omega
    · intro _
      rw [activate_panel_length, activate_panel_index]
      exact hix
    · intro j hj hjne
      rw [activate_panel_index] at hjne
      have hj' : j < d.panel_entries.length := by
        rw [activate_panel_length] at hj
        exact hj
      have hsome : (d.activate_panel ix).1.panel_entries[j]? =
          some (d.activate_panel ix).1.panel_entries[j] := List.getElem?_eq_getElem hj
      by_cases hj2 : j = d.active_panel_index
      · subst hj2
        have := activate_panel_getElem?_old heq (List.getElem?_eq_getElem hact)
        rw [hsome] at this
        have := Option.some.inj this
        rw [this]
      · have := activate_panel_getElem?_away heq j hjne hj2
        rw [hsome, List.getElem?_eq_getElem hj'] at this
        have := Option.some.inj this
        rw [this]
        exact h3 j hj' hj2

/-! ### Characterization of `remove_panel` by case -/

theorem remove_panel_not_found {d : Dock} {pid : Nat}
    (hfind : positionIdx (fun entry => entry.id == pid) d.panel_entries = none) :
    d.remove_panel pid = (d, []) := by
  simp [Dock.remove_panel, hfind]

theorem remove_panel_active_open {d : Dock} {pid ix : Nat}
    (hfind : positionIdx (fun entry => entry.id == pid) d.panel_entries = some ix)
    (hcase : ix = d.active_panel_index) (hopen : d.is_open = true)
    {p0 : PanelState} (hget0 : d.panel_entries[0]? = some p0) :
    d.remove_panel pid =
      ({ d with
           is_open := false
           active_panel_index := 0
           panel_entries := (d.panel_entries.set 0 { p0 with active := false }).eraseIdx ix },
       [DockCall.setActive p0.id false, DockCall.notify, DockCall.notify]) := by
  simp [Dock.remove_panel, hfind, hcase, Dock.set_open, hopen, hget0]

theorem remove_panel_active_closed {d : Dock} {pid ix : Nat}
    (hfind : positionIdx (fun entry => entry.id == pid) d.panel_entries = some ix)
    (hcase : ix = d.active_panel_index) (hopen : d.is_open = false) :
    d.remove_panel pid =
      ({ d with
           active_panel_index := 0
           panel_entries := d.panel_entries.eraseIdx ix },
       [DockCall.notify]) := by
  simp [Dock.remove_panel, hfind, hcase, Dock.set_open, hopen]

theorem remove_panel_before {d : Dock} {pid ix : Nat}
    (hfind : positionIdx (fun entry => entry.id == pid) d.panel_entries = some ix)
    (hlt : ix < d.active_panel_index) :
    d.remove_panel pid =
      ({ d with
           active_panel_index := d.active_panel_index - 1
           panel_entries := d.panel_entries.eraseIdx ix },
       [DockCall.notify]) := by
  have hne : ¬ ix = d.active_panel_index := by omega
  simp [Dock.remove_panel, hfind, hne, hlt]

theorem remove_panel_after {d : Dock} {pid ix : Nat}
    (hfind : positionIdx (fun entry => entry.id == pid) d.panel_entries = some ix)
    (hgt : d.active_panel_index < ix) :
    d.remove_panel pid =
      ({ d with panel_entries := d.panel_entries.eraseIdx ix },
       [DockCall.notify]) := by
  have hne : ¬ ix = d.active_panel_index := by omega
  have hnlt : ¬ ix < d.active_panel_index := by omega
  simp [Dock.remove_panel, hfind, hne, hnlt]

theorem dockInv_remove {d : Dock} (hinv : DockInv d) (pid : Nat) :
    DockInv (d.remove_panel pid).1 := by
  obtain ⟨h1, h2, h3⟩ := hinv
  cases hfind : positionIdx (fun entry => entry.id == pid) d.panel_entries with
  | none =>
    rw [remove_panel_not_found hfind]
    exact ⟨h1, h2, h3⟩
  | some ix =>
    have hix : ix < d.panel_entries.length := positionIdx_some_lt hfind
    have hnil : d.panel_entries ≠ [] := by
      intro h0
      rw [h0] at hix
      simp at hix
    have hact : d.active_panel_index < d.panel_entries.length := h2 hnil
    by_cases hcase : ix = d.active_panel_index
    · cases hopen : d.is_open with
      | true =>
        have h0lt : 0 < d.panel_entries.length := by omega
        have hget0 : d.panel_entries[0]? = some d.panel_entries[0] :=
          List.getElem?_eq_getElem h0lt
        rw [remove_panel_active_open hfind hcase hopen hget0]
        refine ⟨fun _ => rfl, ?_, ?_⟩
        · intro hne'
          simpa using List.length_pos.mpr hne'
        · intro j hj hjne
          dsimp only at hj hjne ⊢
          have hj' : j < d.panel_entries.length - 1 := by
            rw [List.length_eraseIdx_of_lt (by simpa using hix), List.length_set] at hj
            exact hj
          simp only [List.getElem_eraseIdx]
          by_cases hjlt : j < ix
          · rw [dif_pos hjlt, List.getElem_set_ne (Ne.symm hjne)]
            exact h3 j (by omega) (by omega)
          · rw [dif_neg hjlt, List.getElem_set_ne (by omega)]
            exact h3 (j + 1) (by omega) (by omega)
      | false =>
        rw [remove_panel_active_closed hfind hcase hopen]
        refine ⟨fun _ => rfl, ?_, ?_⟩
        · intro hne'
          simpa using List.length_pos.mpr hne'
        · intro j hj hjne
          dsimp only at hj hjne ⊢
          have hj' : j < d.panel_entries.length - 1 := by
            rw [List.length_eraseIdx_of_lt hix] at hj
            exact hj
          simp only [List.getElem_eraseIdx]
          by_cases hjlt : j < ix
          · rw [dif_pos hjlt]
            exact h3 j (by omega) (by omega)
          · rw [dif_neg hjlt]
            exact h3 (j + 1) (by omega) (by omega)
    · by_cases hlt : ix < d.active_panel_index
      · rw [remove_panel_before hfind hlt]
        refine ⟨?_, ?_, ?_⟩
        · intro h0
          exfalso
          dsimp only at h0
          rw [List.eraseIdx_eq_nil] at h0
          rcases h0 with h0 | ⟨hl1, _⟩
          · exact hnil h0
          · omega
        · intro _
          dsimp only
          rw [List.length_eraseIdx_of_lt hix]
          omega
        · intro j hj hjne
          dsimp only at hj hjne ⊢
          have hj' : j < d.panel_entries.length - 1 := by
            rw [List.length_eraseIdx_of_lt hix] at hj
            exact hj
          simp only [List.getElem_eraseIdx]
          by_cases hjlt : j < ix
          · rw [dif_pos hjlt]
            exact h3 j (by omega) (by omega)
          · rw [dif_neg hjlt]
            exact h3 (j + 1) (by omega) (by omega)
      · have hgt : d.active_panel_index < ix := by omega
        rw [remove_panel_after hfind hgt]
        refine ⟨?_, ?_, ?_⟩
        · intro h0
          exfalso
          dsimp only at h0
          rw [List.eraseIdx_eq_nil] at h0
          rcases h0 with h0 | ⟨hl1, _⟩
          · exact hnil h0
          · omega
        · intro _
          dsimp only
          rw [List.length_eraseIdx_of_lt hix]
          omega
        · intro j hj hjne
          dsimp only at hj hjne ⊢
          have hj' : j < d.panel_entries.length - 1 := by
            rw [List.length_eraseIdx_of_lt hix] at hj
            exact hj
          simp only [List.getElem_eraseIdx]
          by_cases hjlt : j < ix
          · rw [dif_pos hjlt]
            exact h3 j (by omega) hjne
          · rw [dif_neg hjlt]
            exact h3 (j + 1) (by omega) (by omega)

theorem dockInv_handleActivate {d : Dock} (hinv : DockInv d) (pid : Nat) :
    DockInv (d.handleActivate pid).1 := by
  cases hfind : positionIdx (fun entry => entry.id == pid) d.panel_entries with
  | none =>
    have : (d.handleActivate pid).1 = d := by simp [Dock.handleActivate, hfind]
    rw [this]
    exact hinv
  | some ix =>
    have hix : ix < d.panel_entries.length := positionIdx_some_lt hfind
    have hres : (d.handleActivate pid).1 = ((d.set_open true).1.activate_panel ix).1 := by
      simp [Dock.handleActivate, hfind]
    rw [hres]
    exact dockInv_activate (dockInv_set_open hinv true)
      (by rw [set_open_length]; exact hix)

theorem dockInv_handleClose {d : Dock} (hinv : DockInv d) (pid : Nat) :
    DockInv (d.handleClose pid).1 := by
  by_cases hvis : (d.visible_panel).map (fun p => p.id) = some pid
  · have : (d.handleClose pid).1 = (d.set_open false).1 := by
      simp [Dock.handleClose, hvis]
    rw [this]
    exact dockInv_set_open hinv false
  · have : (d.handleClose pid).1 = d := by simp [Dock.handleClose, hvis]
    rw [this]
    exact hinv

/-- Every dock reachable by documented operations satisfies the invariant. -/
theorem dockInv_reachable {d : Dock} (h : Reachable d) : DockInv d := by
  induction h with
  | init pos => exact dockInv_new pos
  | step _ hs ih =>
    cases hs with
    | add p hp => exact dockInv_add ih hp
    | remove pid => exact dockInv_remove ih pid
    | activate ix hix => exact dockInv_activate ih hix
    | setOpen b => exact dockInv_set_open ih b
    | evActivate pid => exact dockInv_handleActivate ih pid
    | evClose pid => exact dockInv_handleClose ih pid

/-! ### Bridge lemmas for the claims -/

theorem set_getElem_self {l : List α} {i : Nat} {a : α} (h : l[i]? = some a) :
    l.set i a = l := by
  apply List.ext_getElem?
  intro n
  by_cases hn : i = n
  · subst hn
    rw [List.getElem?_set_self (lt_of_getElem?_eq_some h)]
    exact h.symm
  · rw [List.getElem?_set_ne hn]

/-- With pairwise distinct ids, looking a registered panel up by id yields its
own index. -/
theorem positionIdx_id_lookup {l : List PanelState} {pid : Nat}
    (hnd : (l.map (fun e => e.id)).Nodup) {ix : Nat} (hix : ix < l.length)
    (hid : l[ix].id = pid) :
    positionIdx (fun entry => entry.id == pid) l = some ix := by
  simp only [← hid]
  exact @positionIdx_map_nodup PanelState Nat _ _ (fun e => e.id) l ix hix hnd

theorem add_panels_cons (d : Dock) (p : PanelState) (t : List PanelState) :
    d.add_panels (p :: t) = ((d.add_panel p).1).add_panels t := rfl

theorem add_panels_entries (ps : List PanelState) : ∀ (d : Dock),
    (d.add_panels ps).panel_entries = d.panel_entries ++ ps := by
  induction ps with
  | nil => intro d; simp [Dock.add_panels]
  | cons p t ih =>
    intro d
    rw [add_panels_cons, ih]
    simp [Dock.add_panel]

/-! ### The claims -/

/-- C3: removing the panel that sits at `active_panel_index` erases exactly
that entry, resets `active_panel_index` to 0, forces `is_open` to false, and
leaves no visible panel (no other panel is promoted to active-and-open). -/
theorem remove_active_panel_resets (d : Dock) (pid : Nat)
    (hnd : (d.panel_entries.map (fun e => e.id)).Nodup)
    (hact : d.active_panel_index < d.panel_entries.length)
    (hid : d.panel_entries[d.active_panel_index].id = pid) :
    (d.remove_panel pid).1.active_panel_index = 0 ∧
    (d.remove_panel pid).1.is_open = false ∧
    (d.remove_panel pid).1.panel_entries.map (fun e => e.id) =
      (d.panel_entries.map (fun e => e.id)).eraseIdx d.active_panel_index ∧
    (d.remove_panel pid).1.visible_panel = none := by
  have hfind : positionIdx (fun entry => entry.id == pid) d.panel_entries =
      some d.active_panel_index := positionIdx_id_lookup hnd hact hid
  cases hopen : d.is_open with
  | true =>
    have h0 : 0 < d.panel_entries.length := by omega
    have hget0 : d.panel_entries[0]? = some d.panel_entries[0] :=
      List.getElem?_eq_getElem h0
    rw [remove_panel_active_open hfind rfl hopen hget0]
    refine ⟨rfl, rfl, ?_, ?_⟩
    · dsimp only
      rw [map_eraseIdx, List.map_set]
      congr 1
      apply set_getElem_self
      rw [List.getElem?_map, hget0, Option.map_some']
    · simp [Dock.visible_panel, Dock.visible_entry]
  | false =>
    rw [remove_panel_active_closed hfind rfl hopen]
    refine ⟨rfl, hopen, ?_, ?_⟩
    · dsimp only
      rw [map_eraseIdx]
    · simp [Dock.visible_panel, Dock.visible_entry, hopen]

/-- C3 witness: removing the active first panel of `[A(active), B, C]`. -/
theorem remove_active_panel_resets_witness :
    (dockABCopen.remove_panel 1).1.active_panel_index = 0 ∧
    (dockABCopen.remove_panel 1).1.is_open = false ∧
    (dockABCopen.remove_panel 1).1.panel_entries.map (fun e => e.id) =
      (dockABCopen.panel_entries.map (fun e => e.id)).eraseIdx
        dockABCopen.active_panel_index ∧
    (dockABCopen.remove_panel 1).1.visible_panel = none :=
  remove_active_panel_resets dockABCopen 1 (by decide) (by decide) (by decide)

/-- C4: removing a registered panel strictly before the active index erases
that entry, decrements `active_panel_index`, keeps `is_open`, and keeps the
same logical panel active. -/
theorem remove_before_active_shifts (d : Dock) (pid ix : Nat)
    (hnd : (d.panel_entries.map (fun e => e.id)).Nodup)
    (hix : ix < d.panel_entries.length)
    (hid : d.panel_entries[ix].id = pid)
    (hlt : ix < d.active_panel_index) :
    (d.remove_panel pid).1.panel_entries = d.panel_entries.eraseIdx ix ∧
    (d.remove_panel pid).1.active_panel_index = d.active_panel_index - 1 ∧
    (d.remove_panel pid).1.is_open = d.is_open ∧
    (d.remove_panel pid).1.active_panel = d.active_panel := by
  have hfind := positionIdx_id_lookup hnd hix hid
  rw [remove_panel_before hfind hlt]
  refine ⟨rfl, rfl, rfl, ?_⟩
  show (d.panel_entries.eraseIdx ix)[d.active_panel_index - 1]? =
    d.panel_entries[d.active_panel_index]?
  rw [List.getElem?_eraseIdx_of_ge _ _ _ (by omega)]
  have harith : d.active_panel_index - 1 + 1 = d.active_panel_index := by omega
  rw [harith]

/-- C4 witness: removing the first panel of `[A, B(active), C]`. -/
theorem remove_before_active_shifts_witness :
    (dockBActiveOpen.remove_panel 1).1.panel_entries =
      dockBActiveOpen.panel_entries.eraseIdx 0 ∧
    (dockBActiveOpen.remove_panel 1).1.active_panel_index =
      dockBActiveOpen.active_panel_index - 1 ∧
    (dockBActiveOpen.remove_panel 1).1.is_open = dockBActiveOpen.is_open ∧
    (dockBActiveOpen.remove_panel 1).1.active_panel = dockBActiveOpen.active_panel :=
  remove_before_active_shifts dockBActiveOpen 1 0 (by decide) (by decide)
    (by decide) (by decide)

/-- C10: removing a registered panel strictly after the active index erases
only that entry, leaves `active_panel_index`, `is_open` and the active panel
unchanged, and performs no `set_active` call (the trace is a bare notify). -/
theorem remove_after_active_frame (d : Dock) (pid ix : Nat)
    (hnd : (d.panel_entries.map (fun e => e.id)).Nodup)
    (hix : ix < d.panel_entries.length)
    (hid : d.panel_entries[ix].id = pid)
    (hgt : d.active_panel_index < ix) :
    (d.remove_panel pid).1.panel_entries = d.panel_entries.eraseIdx ix ∧
    (d.remove_panel pid).1.active_panel_index = d.active_panel_index ∧
    (d.remove_panel pid).1.is_open = d.is_open ∧
    (d.remove_panel pid).2 = [DockCall.notify] ∧
    (d.remove_panel pid).1.active_panel = d.active_panel := by
  have hfind := positionIdx_id_lookup hnd hix hid
  rw [remove_panel_after hfind hgt]
  refine ⟨rfl, rfl, rfl, rfl, ?_⟩
  show (d.panel_entries.eraseIdx ix)[d.active_panel_index]? =
    d.panel_entries[d.active_panel_index]?
  rw [List.getElem?_eraseIdx_of_lt _ _ _ hgt]

/-- C10 witness: removing the second panel of `[A(active), B]`. -/
theorem remove_after_active_frame_witness :
    (dockABopen.remove_panel 2).1.panel_entries =
      dockABopen.panel_entries.eraseIdx 1 ∧
    (dockABopen.remove_panel 2).1.active_panel_index =
      dockABopen.active_panel_index ∧
    (dockABopen.remove_panel 2).1.is_open = dockABopen.is_open ∧
    (dockABopen.remove_panel 2).2 = [DockCall.notify] ∧
    (dockABopen.remove_panel 2).1.active_panel = dockABopen.active_panel :=
  remove_after_active_frame dockABopen 2 1 (by decide) (by decide) (by decide)
    (by decide)

/-- C5: when a registered panel emits `Activate`, the dock is forced open and
that panel's entry index becomes active; an unregistered emitter leaves the
dock unchanged. -/
theorem activate_event_routes (d : Dock) (pid : Nat) :
    (∀ ix, positionIdx (fun entry => entry.id == pid) d.panel_entries = some ix →
        (d.handleActivate pid).1.is_open = true ∧
        (d.handleActivate pid).1.active_panel_index = ix) ∧
    (positionIdx (fun entry => entry.id == pid) d.panel_entries = none →
        d.handleActivate pid = (d, [])) := by
  constructor
  · intro ix hfind
    have hres : (d.handleActivate pid).1 = ((d.set_open true).1.activate_panel ix).1 := by
      simp [Dock.handleActivate, hfind]
    rw [hres, activate_panel_is_open, set_open_is_open, activate_panel_index]
    exact ⟨rfl, rfl⟩
  · intro hfind
    simp [Dock.handleActivate, hfind]

/-- C5 witness: the panel at entry index 2 of a three-entry closed dock emits
`Activate`. -/
theorem activate_event_routes_witness :
    (dockABCclosed.handleActivate 3).1.is_open = true ∧
    (dockABCclosed.handleActivate 3).1.active_panel_index = 2 :=
  (activate_event_routes dockABCclosed 3).1 2 (by decide)

/-- C6: when the visible panel emits `Close`, the dock closes and the active
index is untouched; any other emitter leaves the dock unchanged. -/
theorem close_event_routes (d : Dock) (pid : Nat) :
    ((d.visible_panel).map (fun p => p.id) = some pid →
        (d.handleClose pid).1.is_open = false ∧
        (d.handleClose pid).1.active_panel_index = d.active_panel_index) ∧
    ((d.visible_panel).map (fun p => p.id) ≠ some pid →
        d.handleClose pid = (d, [])) := by
  constructor
  · intro hvis
    have hres : (d.handleClose pid).1 = (d.set_open false).1 := by
      simp [Dock.handleClose, hvis]
    rw [hres, set_open_is_open, set_open_index]
    exact ⟨rfl, rfl⟩
  · intro hvis
    simp [Dock.handleClose, hvis]

/-- C6 witness: the visible panel of an open one-entry dock emits `Close`. -/
theorem close_event_routes_witness :
    (dockAvisible.handleClose 1).1.is_open = false ∧
    (dockAvisible.handleClose 1).1.active_panel_index =
      dockAvisible.active_panel_index :=
  (close_event_routes dockAvisible 1).1 (by decide)

/-- C7: `set_open` with an unchanged flag is a strict no-op (no `set_active`,
no notify); with a changed flag the dock records the new flag, the active
panel (if any) receives `set_active` with that flag, and one notify fires;
with no active entry only the notify fires. -/
theorem set_open_contract (d : Dock) (b : Bool) :
    (b = d.is_open → d.set_open b = (d, [])) ∧
    (b ≠ d.is_open →
      (d.set_open b).1.is_open = b ∧
      (∀ p, d.active_panel = some p →
          (d.set_open b).2 = [DockCall.setActive p.id b, DockCall.notify]) ∧
      (d.active_panel = none →
          (d.set_open b).1 = { d with is_open := b } ∧
          (d.set_open b).2 = [DockCall.notify])) := by
  refine ⟨fun hb => set_open_eq_self hb,
    fun hb => ⟨set_open_is_open d b, ?_, ?_⟩⟩
  · intro p hp
    have hp' : d.panel_entries[d.active_panel_index]? = some p := hp
    simp [Dock.set_open, hb, hp']
  · intro hp
    have hp' : d.panel_entries[d.active_panel_index]? = none := hp
    constructor <;> simp [Dock.set_open, hb, hp']

/-- C7 witness: on an empty `Bottom` dock, `set_open(true)` flips the flag
with a bare notify and a second `set_open(true)` is a no-op. -/
theorem set_open_contract_witness :
    ((Dock.new DockPosition.Bottom).set_open true).1.is_open = true ∧
    ((Dock.new DockPosition.Bottom).set_open true).2 = [DockCall.notify] ∧
    ((Dock.new DockPosition.Bottom).set_open true).1.set_open true =
      (((Dock.new DockPosition.Bottom).set_open true).1, []) :=
  ⟨((set_open_contract (Dock.new DockPosition.Bottom) true).2 (by decide)).1,
   (((set_open_contract (Dock.new DockPosition.Bottom) true).2 (by decide)).2.2
     (by decide)).2,
   (set_open_contract ((Dock.new DockPosition.Bottom).set_open true).1 true).1
     (by decide)⟩

/-- C9 counterexample: `activate_panel` with an out-of-range index is not
rejected; the call completes and the out-of-range index is stored into
`active_panel_index`, so the violation is silently accepted into dock state
rather than reported. -/
theorem activate_out_of_range_counterexample :
    dockSingleA.panels_len = 1 ∧
    (dockSingleA.activate_panel 5).1.active_panel_index = 5 ∧
    (dockSingleA.activate_panel 5).1.panels_len = 1 ∧
    (dockSingleA.activate_panel 5).2 =
      [DockCall.setActive 1 false, DockCall.notify] := by
  decide

/-- C9 (amended): `activate_panel` performs no bounds check; with an
out-of-range index the call is total, stores the index into
`active_panel_index`, keeps the open flag, and activates no panel (every
`set_active` it sends carries `false`). -/
theorem activate_out_of_range_silent (d : Dock) (ix : Nat)
    (hge : d.panel_entries.length ≤ ix) (hne : ix ≠ d.active_panel_index) :
    (d.activate_panel ix).1.active_panel_index = ix ∧
    (d.activate_panel ix).1.is_open = d.is_open ∧
    ∀ i b, DockCall.setActive i b ∈ (d.activate_panel ix).2 → b = false := by
  refine ⟨activate_panel_index d ix, activate_panel_is_open d ix, ?_⟩
  intro i b hmem
  cases hget1 : d.panel_entries[d.active_panel_index]? with
  | none =>
    have htr : (d.activate_panel ix).2 = [DockCall.notify] := by
      have hget2 : d.panel_entries[ix]? = none := List.getElem?_eq_none hge
      simp [Dock.activate_panel, hne, hget1, hget2]
    rw [htr] at hmem
    simp at hmem
  | some p =>
    have htr : (d.activate_panel ix).2 =
        [DockCall.setActive p.id false, DockCall.notify] := by
      have hget2 : (d.panel_entries.set d.active_panel_index
          { p with active := false })[ix]? = none :=
        List.getElem?_eq_none (by simpa using hge)
      simp [Dock.activate_panel, hne, hget1, hget2]
    rw [htr] at hmem
    rcases List.mem_cons.mp hmem with heq | hmem2
    · cases heq
      rfl
    · rcases List.mem_cons.mp hmem2 with heq | hmem3
      · exact DockCall.noConfusion heq
      · simp at hmem3

/-- C9 witness: activating index 5 on a one-entry dock. -/
theorem activate_out_of_range_silent_witness :
    (dockSingleA.activate_panel 5).1.active_panel_index = 5 ∧
    (dockSingleA.activate_panel 5).1.is_open = dockSingleA.is_open ∧
    ∀ i b, DockCall.setActive i b ∈ (dockSingleA.activate_panel 5).2 →
      b = false :=
  activate_out_of_range_silent dockSingleA 5 (by decide) (by decide)

/-- C8 counterexample: two panels of the same concrete type share one
`persistent_name`, and `panel_index_for_persistent_name` resolves the name to
the first entry, not to each panel's own entry. -/
theorem add_panels_lookup_counterexample : ¬ c8Claim := by
  intro h
  have := (h DockPosition.Left [panelT1, panelT2]).2 1 (by decide)
  exact absurd this (by decide)

/-- C8 (amended): after any sequence of `add_panel` calls on a fresh dock,
`panels_len` equals the number of calls; and provided the added panels carry
pairwise distinct persistent names, `panel_index_for_persistent_name`
resolves each added panel's name to that panel's entry index. -/
theorem add_panels_lookup (pos : DockPosition) (ps : List PanelState) :
    ((Dock.new pos).add_panels ps).panels_len = ps.length ∧
    ((ps.map (fun p => p.name)).Nodup →
      ∀ i (hi : i < ps.length),
        ((Dock.new pos).add_panels ps).panel_index_for_persistent_name
          ps[i].name = some i) := by
  have hentries : ((Dock.new pos).add_panels ps).panel_entries = ps := by
    rw [add_panels_entries]
    simp [Dock.new]
  constructor
  · show ((Dock.new pos).add_panels ps).panel_entries.length = ps.length
    rw [hentries]
  · intro hnames i hi
    show positionIdx (fun entry => entry.name == ps[i].name)
      ((Dock.new pos).add_panels ps).panel_entries = some i
    rw [hentries]
    exact @positionIdx_map_nodup PanelState String _ _ (fun p => p.name) ps i hi hnames

/-- C8 witness: the length half on a duplicate-name sequence, and both halves
on two distinctly named panels. -/
theorem add_panels_lookup_witness :
    ((Dock.new DockPosition.Left).add_panels [panelT1, panelT2]).panels_len = 2 ∧
    ((Dock.new DockPosition.Left).add_panels [panelA, panelB]).panels_len = 2 ∧
    ((Dock.new DockPosition.Left).add_panels
        [panelA, panelB]).panel_index_for_persistent_name
      [panelA, panelB][1].name = some 1 :=
  ⟨(add_panels_lookup DockPosition.Left [panelT1, panelT2]).1,
   (add_panels_lookup DockPosition.Left [panelA, panelB]).1,
   (add_panels_lookup DockPosition.Left [panelA, panelB]).2 (by decide) 1
     (by decide)⟩

theorem reachable_dockOpenEmptyThenA : Reachable dockOpenEmptyThenA :=
  Reachable.step
    (Reachable.step (Reachable.init DockPosition.Bottom)
      (DockStep.setOpen (Dock.new DockPosition.Bottom) true))
    (DockStep.add ((Dock.new DockPosition.Bottom).set_open true).1 panelA rfl)

theorem reachable_dockAopen : Reachable dockAopen :=
  Reachable.step
    (Reachable.step (Reachable.init DockPosition.Left)
      (DockStep.add (Dock.new DockPosition.Left) panelA rfl))
    (DockStep.setOpen ((Dock.new DockPosition.Left).add_panel panelA).1 true)

theorem reachable_dockABactivatedClosed : Reachable dockABactivatedClosed :=
  Reachable.step
    (Reachable.step
      (Reachable.step (Reachable.init DockPosition.Left)
        (DockStep.add (Dock.new DockPosition.Left) panelA rfl))
      (DockStep.add ((Dock.new DockPosition.Left).add_panel panelA).1 panelB rfl))
    (DockStep.activate
      (((Dock.new DockPosition.Left).add_panel panelA).1.add_panel panelB).1 1
      (by decide))

/-- C1 counterexample: opening an empty dock and then adding a panel is a
documented operation sequence that reaches an open, non-empty dock in which
no registered panel reports active (`add_panel` never calls `set_active`),
so "exactly one" fails. -/
theorem exactly_one_active_counterexample : ¬ c1Claim := by
  intro h
  have := (h dockOpenEmptyThenA reachable_dockOpenEmptyThenA (by decide)
    (by decide)).1
  exact absurd this (by decide)

/-- C1 (amended): on every reachable dock that is open with a non-empty
registry, at most one registered panel reports active, any panel reporting
active is the one at `active_panel_index`, and it is the one returned by
`active_panel()`; a dock opened while empty and then given a panel can be
open with no active panel. -/
theorem at_most_one_active_invariant (d : Dock) (hr : Reachable d)
    (ho : d.is_open = true) (hne : d.panel_entries ≠ []) :
    d.panel_entries.countP (fun p => p.active) ≤ 1 ∧
    ∀ i (hi : i < d.panel_entries.length), d.panel_entries[i].active = true →
      i = d.active_panel_index ∧ d.active_panel = some d.panel_entries[i] := by
  obtain ⟨h1, h2, h3⟩ := dockInv_reachable hr
  constructor
  · exact countP_active_le_one d.panel_entries d.active_panel_index h3
  · intro i hi hactive
    have hieq : i = d.active_panel_index := by
      by_contra hne2
      rw [h3 i hi hne2] at hactive
      exact Bool.noConfusion hactive
    refine ⟨hieq, ?_⟩
    subst hieq
    show d.panel_entries[d.active_panel_index]? =
      some d.panel_entries[d.active_panel_index]
    exact List.getElem?_eq_getElem hi

/-- C1 witness: a reachable open one-entry dock with its panel active. -/
theorem at_most_one_active_invariant_witness :
    dockAopen.panel_entries.countP (fun p => p.active) ≤ 1 ∧
    (0 : Nat) = dockAopen.active_panel_index :=
  ⟨(at_most_one_active_invariant dockAopen reachable_dockAopen (by decide)
      (by decide)).1,
   ((at_most_one_active_invariant dockAopen reachable_dockAopen (by decide)
      (by decide)).2 0 (by decide) (by decide)).1⟩

/-- C2 counterexample: `activate_panel` on a closed dock sends
`set_active(true)` to the newly active panel, so that panel's last received
activation value is `true` while its dock-observed activation state (open and
at the active index) is false — the two do not match. -/
theorem mirrored_activation_counterexample : ¬ c2Claim := by
  intro h
  have := (h dockABactivatedClosed reachable_dockABactivatedClosed 1
    (by decide)).mp (by decide)
  exact absurd this.1 (by decide)

/-- C2 (amended): the `set_active` notifications keep this much in sync on
every reachable dock: a panel whose last received `set_active` value is
`true` is necessarily the panel at `active_panel_index` (so at most one panel
ever observes itself active); but its dock-observed visibility can still be
false, because `activate_panel` on a closed dock also sends
`set_active(true)`. -/
theorem activation_targets_active_index (d : Dock) (hr : Reachable d) :
    ∀ i (hi : i < d.panel_entries.length), d.panel_entries[i].active = true →
      i = d.active_panel_index := by
  obtain ⟨h1, h2, h3⟩ := dockInv_reachable hr
  intro i hi hactive
  by_contra hne2
  rw [h3 i hi hne2] at hactive
  exact Bool.noConfusion hactive

/-- C2 witness: in the reachable dock where panel B was activated while
closed, the panel observing `active = true` is the one at the active index. -/
theorem activation_targets_active_index_witness :
    (1 : Nat) = dockABactivatedClosed.active_panel_index :=
  activation_targets_active_index dockABactivatedClosed
    reachable_dockABactivatedClosed 1 (by decide) (by decide)
